import Mathlib

/-!
Shallow embedding of the scroll-video synchronizer (src/RECATI/script.js)
and the moon-phase helper (src/DAMI/static/js/app.js).

JS numbers are modelled as rationals wherever the source only performs
field arithmetic and comparisons, and as reals where the source calls
transcendental functions (Math.exp, Math.cos).
-/

/-- Constant FREEZE_TIME = 7.0 (script.js line 3). -/
def FREEZE_TIME : ℚ := 7

/-- Constant SCROLL_SLOP = 0.02 (script.js line 4). -/
def SCROLL_SLOP : ℚ := 2/100

/-- Constant SEEK_FPS = 72 (script.js line 5). -/
def SEEK_FPS : ℚ := 72

/-- Constant SMOOTH_RESPONSE = 11 (script.js line 6). -/
def SMOOTH_RESPONSE : ℚ := 11

/-- Constant MIN_TIME_STEP = 1 / 45 (script.js line 9). -/
def MIN_TIME_STEP : ℚ := 1/45

/-- `clamp(n, a, b) = Math.max(a, Math.min(b, n))` (script.js lines 32-34),
stated for any linear order so it can be used at both ℚ and ℝ. -/
def clamp {α : Type} [LinearOrder α] (n a b : α) : α :=
  max a (min b n)

/-- `getPageProgress` (script.js lines 40-45): `total = offsetHeight - innerHeight`,
`scrolled = clamp(-rect.top, 0, total)`, result `total > 0 ? scrolled / total : 0`. -/
def getPageProgress (rectTop offsetHeight innerHeight : ℚ) : ℚ :=
  let total := offsetHeight - innerHeight
  let scrolled := clamp (-rectTop) 0 total
  if 0 < total then scrolled / total else 0

theorem left_le_clamp {α : Type} [LinearOrder α] (n a b : α) : a ≤ clamp n a b :=
  le_max_left a (min b n)

theorem clamp_le_right {α : Type} [LinearOrder α] {a b : α} (n : α) (hab : a ≤ b) :
    clamp n a b ≤ b :=
  max_le hab (min_le_left b n)

theorem clamp_mono {α : Type} [LinearOrder α] {n₁ n₂ : α} (a b : α) (h : n₁ ≤ n₂) :
    clamp n₁ a b ≤ clamp n₂ a b :=
  max_le_max le_rfl (min_le_min le_rfl h)

theorem clamp_of_le_left {α : Type} [LinearOrder α] {n a b : α} (h : n ≤ a) :
    clamp n a b = a :=
  max_eq_left (le_trans (min_le_right b n) h)

theorem clamp_of_right_le {α : Type} [LinearOrder α] {n a b : α} (hab : a ≤ b) (h : b ≤ n) :
    clamp n a b = b := by
  unfold clamp
  rw [min_eq_left h, max_eq_right hab]

/-- Claim C6: for every pair of scroll offsets (offset = `-rect.top`),
`getPageProgress` is monotone non-decreasing in the offset; its result always
lies in [0,1]; an offset before the span (≤ 0) yields 0; and, when the span is
positive, an offset at or past the span yields 1. -/
theorem c6_progress_monotone_clamped :
    (∀ offsetHeight innerHeight t₁ t₂ : ℚ, -t₁ ≤ -t₂ →
      getPageProgress t₁ offsetHeight innerHeight ≤ getPageProgress t₂ offsetHeight innerHeight) ∧
    (∀ rectTop offsetHeight innerHeight : ℚ,
      0 ≤ getPageProgress rectTop offsetHeight innerHeight ∧
      getPageProgress rectTop offsetHeight innerHeight ≤ 1) ∧
    (∀ rectTop offsetHeight innerHeight : ℚ, -rectTop ≤ 0 →
      getPageProgress rectTop offsetHeight innerHeight = 0) ∧
    (∀ rectTop offsetHeight innerHeight : ℚ, 0 < offsetHeight - innerHeight →
      offsetHeight - innerHeight ≤ -rectTop →
      getPageProgress rectTop offsetHeight innerHeight = 1) := by
  refine ⟨?_, ?_, ?_, ?_⟩
  · intro oh ih t₁ t₂ h
    unfold getPageProgress
    by_cases h0 : 0 < oh - ih
    · simp only [h0, if_true]
      exact (div_le_div_iff_of_pos_right h0).2 (clamp_mono 0 (oh - ih) h)
    · simp [h0]
  · intro rt oh ih
    unfold getPageProgress
    by_cases h0 : 0 < oh - ih
    · simp only [h0, if_true]
      constructor
      · exact div_nonneg (left_le_clamp (-rt) 0 (oh - ih)) h0.le
      · exact (div_le_one h0).2 (clamp_le_right (-rt) h0.le)
    · simp [h0]
  · intro rt oh ih h
    unfold getPageProgress
    by_cases h0 : 0 < oh - ih
    · simp only [h0, if_true]
      rw [clamp_of_le_left h, zero_div]
    · simp [h0]
  · intro rt oh ih h0 hpast
    unfold getPageProgress
    simp only [h0, if_true]
    rw [clamp_of_right_le h0.le hpast, div_self (ne_of_gt h0)]

/-- Witness for C6 at concrete geometry: container 300 tall, viewport 100,
offsets 50 ≤ 120, an offset before the span and one past it. -/
theorem c6_witness :
    (-(-50 : ℚ) ≤ -(-120)) ∧
    getPageProgress (-50) 300 100 ≤ getPageProgress (-120) 300 100 ∧
    (0 ≤ getPageProgress (-50) 300 100 ∧ getPageProgress (-50) 300 100 ≤ 1) ∧
    ((-(10:ℚ) ≤ 0) ∧ getPageProgress 10 300 100 = 0) ∧
    ((0:ℚ) < 300 - 100 ∧ (300:ℚ) - 100 ≤ -(-250) ∧ getPageProgress (-250) 300 100 = 1) :=
  ⟨by norm_num,
   c6_progress_monotone_clamped.1 300 100 (-50) (-120) (by norm_num),
   c6_progress_monotone_clamped.2.1 (-50) 300 100,
   ⟨by norm_num, c6_progress_monotone_clamped.2.2.1 10 300 100 (by norm_num)⟩,
   ⟨by norm_num, by norm_num,
    c6_progress_monotone_clamped.2.2.2 (-250) 300 100 (by norm_num) (by norm_num)⟩⟩

/-- Claim C7: when the scrollable span `offsetHeight - innerHeight` is ≤ 0,
`getPageProgress` returns exactly 0 (the guarded branch avoids the division). -/
theorem c7_nonpositive_span_zero (rectTop offsetHeight innerHeight : ℚ)
    (h : offsetHeight - innerHeight ≤ 0) :
    getPageProgress rectTop offsetHeight innerHeight = 0 := by
  unfold getPageProgress
  simp [not_lt.2 h]

/-- Witness for C7: a container exactly as tall as the viewport. -/
theorem c7_witness :
    ((100:ℚ) - 100 ≤ 0) ∧ getPageProgress (-30) 100 100 = 0 :=
  ⟨by norm_num, c7_nonpositive_span_zero (-30) 100 100 (by norm_num)⟩

/-- The mutable variables read or written by `seekToTime` (script.js lines
23-29): `initialized`, `lastSeekAt`, `lastRequestedTime`, the media position
`video.currentTime`, and `smoothTime` (held alongside to record that the
seek path never touches it). -/
structure SeekState where
  initialized : Bool
  lastSeekAt : ℚ
  lastRequestedTime : ℚ
  videoCurrentTime : ℚ
  smoothTime : ℚ
deriving DecidableEq

/-- `nextTime = clamp(time, 0, Math.min(FREEZE_TIME, safeDuration))` with
`safeDuration = Number.isFinite(video.duration) ? video.duration : FREEZE_TIME`
(script.js lines 94-95); a non-finite duration is modelled as `none`. -/
def nextSeekTime (duration : Option ℚ) (time : ℚ) : ℚ :=
  clamp time 0 (min FREEZE_TIME (duration.getD FREEZE_TIME))

/-- `seekToTime(time, nowMs)` (script.js lines 91-108). Returns the updated
state and whether the media-position write was reached. A suppressed call
returns the state unchanged; an accepted call records `lastSeekAt = nowMs`,
`lastRequestedTime = nextTime` and performs the write. -/
def seekToTime (s : SeekState) (duration : Option ℚ) (time nowMs : ℚ) : SeekState × Bool :=
  if s.initialized = false then (s, false)
  else if nowMs - s.lastSeekAt < 1000 / SEEK_FPS then (s, false)
  else if |s.lastRequestedTime - nextSeekTime duration time| ≤ MIN_TIME_STEP * (1/2) then (s, false)
  else if |s.videoCurrentTime - nextSeekTime duration time| ≤ MIN_TIME_STEP * (1/2) then (s, false)
  else ({ s with lastSeekAt := nowMs, lastRequestedTime := nextSeekTime duration time,
                 videoCurrentTime := nextSeekTime duration time }, true)

/-- Runs a list of `(time, nowMs)` seek calls in order, returning the final
state and how many calls reached the media-position write. -/
def runSeeks (duration : Option ℚ) : SeekState → List (ℚ × ℚ) → SeekState × ℕ
  | s, [] => (s, 0)
  | s, (t, n) :: rest =>
    let r := seekToTime s duration t n
    let r2 := runSeeks duration r.1 rest
    (r2.1, (if r.2 then 1 else 0) + r2.2)

theorem seekToTime_suppressed_of_throttle (s : SeekState) (duration : Option ℚ)
    (time nowMs : ℚ) (h : nowMs - s.lastSeekAt < 1000 / SEEK_FPS) :
    seekToTime s duration time nowMs = (s, false) := by
  unfold seekToTime
  by_cases hi : s.initialized = false
  · rw [if_pos hi]
  · rw [if_neg hi, if_pos h]

theorem runSeeks_all_suppressed (duration : Option ℚ) (calls : List (ℚ × ℚ)) :
    ∀ s : SeekState, (∀ p ∈ calls, p.2 - s.lastSeekAt < 1000 / SEEK_FPS) →
      runSeeks duration s calls = (s, 0) := by
  induction calls with
  | nil => intro s _; rfl
  | cons hd tl ih =>
    intro s h
    have h1 : seekToTime s duration hd.1 hd.2 = (s, false) :=
      seekToTime_suppressed_of_throttle s duration hd.1 hd.2
        (h hd (List.mem_cons_self hd tl))
    have h2 : runSeeks duration s tl = (s, 0) :=
      ih s (fun p hp => h p (List.mem_cons_of_mem hd hp))
    calc runSeeks duration s (hd :: tl)
        = ((runSeeks duration (seekToTime s duration hd.1 hd.2).1 tl).1,
           (if (seekToTime s duration hd.1 hd.2).2 then 1 else 0) +
           (runSeeks duration (seekToTime s duration hd.1 hd.2).1 tl).2) := rfl
      _ = (s, 0) := by rw [h1]; simp [h2]

/-- Claim C4: (1) an accepted seek always comes at least `1000/SEEK_FPS` ms
after the recorded last accepted seek, so two forwarded seeks are never
closer than the throttle interval; (2) in a sequence of calls whose
timestamps all fall less than `1000/SEEK_FPS` ms after the seek timestamp
recorded once the first call has run, no call after the first is forwarded
and the state stays exactly as the first call left it. -/
theorem c4_seek_throttle :
    (∀ (s : SeekState) (duration : Option ℚ) (time nowMs : ℚ),
      (seekToTime s duration time nowMs).2 = true →
      1000 / SEEK_FPS ≤ nowMs - s.lastSeekAt) ∧
    (∀ (s : SeekState) (duration : Option ℚ) (t₀ n₀ : ℚ) (rest : List (ℚ × ℚ)),
      (∀ p ∈ rest, p.2 - (seekToTime s duration t₀ n₀).1.lastSeekAt < 1000 / SEEK_FPS) →
      runSeeks duration s ((t₀, n₀) :: rest) =
        ((seekToTime s duration t₀ n₀).1,
         if (seekToTime s duration t₀ n₀).2 then 1 else 0)) := by
  constructor
  · intro s duration time nowMs h
    by_contra hlt
    rw [seekToTime_suppressed_of_throttle s duration time nowMs (by linarith [not_le.1 hlt])] at h
    exact Bool.false_ne_true h
  · intro s duration t₀ n₀ rest h
    have h2 := runSeeks_all_suppressed duration rest (seekToTime s duration t₀ n₀).1 h
    calc runSeeks duration s ((t₀, n₀) :: rest)
        = ((runSeeks duration (seekToTime s duration t₀ n₀).1 rest).1,
           (if (seekToTime s duration t₀ n₀).2 then 1 else 0) +
           (runSeeks duration (seekToTime s duration t₀ n₀).1 rest).2) := rfl
      _ = _ := by rw [h2]; simp

theorem c4_first_call_forwarded :
    seekToTime ⟨true, 0, -1, 0, 0⟩ none 3 1000 = (⟨true, 1000, 3, 3, 0⟩, true) := by
  have hn : nextSeekTime none 3 = 3 := by
    norm_num [nextSeekTime, clamp, FREEZE_TIME, min_def, max_def]
  unfold seekToTime
  rw [if_neg (by norm_num), if_neg (by norm_num [SEEK_FPS]), hn,
      if_neg (by norm_num [MIN_TIME_STEP, abs_le]), if_neg (by norm_num [MIN_TIME_STEP, abs_le])]

/-- Witness for C4: from a fresh state a seek at t=3, now=1000 is accepted
(and indeed 1000/72 ≤ 1000), and a follow-up call 1 ms later is suppressed,
leaving exactly one forwarded seek. -/
theorem c4_witness :
    ((seekToTime ⟨true, 0, -1, 0, 0⟩ none 3 1000).2 = true ∧
     1000 / SEEK_FPS ≤ (1000:ℚ) - (0:ℚ)) ∧
    ((∀ p ∈ [((3:ℚ), (1001:ℚ))],
        p.2 - (seekToTime ⟨true, 0, -1, 0, 0⟩ none 3 1000).1.lastSeekAt < 1000 / SEEK_FPS) ∧
     runSeeks none ⟨true, 0, -1, 0, 0⟩ [(3, 1000), (3, 1001)] =
       ((seekToTime ⟨true, 0, -1, 0, 0⟩ none 3 1000).1,
        if (seekToTime ⟨true, 0, -1, 0, 0⟩ none 3 1000).2 then 1 else 0)) :=
  ⟨⟨by rw [c4_first_call_forwarded],
    c4_seek_throttle.1 ⟨true, 0, -1, 0, 0⟩ none 3 1000 (by rw [c4_first_call_forwarded])⟩,
   ⟨by rw [c4_first_call_forwarded]; norm_num [SEEK_FPS],
    c4_seek_throttle.2 ⟨true, 0, -1, 0, 0⟩ none 3 1000 [(3, 1001)]
      (by rw [c4_first_call_forwarded]; norm_num [SEEK_FPS])⟩⟩

/-- Counterexample for C5: with throttle time elapsed (1000 ms since the
last accepted seek) and a requested time differing from the last requested
time by exactly half the minimum time step (1/90), the code suppresses the
seek (the comparison on script.js line 99 is `<=`), while the claim says a
difference of exactly half the step is not suppressed. -/
theorem c5_counterexample :
    seekToTime ⟨true, 0, 3, 0, 0⟩ none (3 + 1/90) 1000 = (⟨true, 0, 3, 0, 0⟩, false) := by
  have hn : nextSeekTime none (3 + 1/90) = 3 + 1/90 := by
    norm_num [nextSeekTime, clamp, FREEZE_TIME, min_def, max_def]
  unfold seekToTime
  rw [if_neg (by norm_num), if_neg (by norm_num [SEEK_FPS]), hn,
      if_pos (by norm_num [MIN_TIME_STEP, abs_le])]

/-- Claim C5 amended: a seek request whose clamped target differs from the
last requested time by *at most* half the minimum time step (the comparison
is `<=`, so exactly 1/90 is also suppressed) never reaches the media write
and leaves the state unchanged. -/
theorem c5_dead_zone (s : SeekState) (duration : Option ℚ) (time nowMs : ℚ)
    (h : |s.lastRequestedTime - nextSeekTime duration time| ≤ MIN_TIME_STEP * (1/2)) :
    seekToTime s duration time nowMs = (s, false) := by
  unfold seekToTime
  by_cases hi : s.initialized = false
  · rw [if_pos hi]
  · rw [if_neg hi]
    by_cases ht : nowMs - s.lastSeekAt < 1000 / SEEK_FPS
    · rw [if_pos ht]
    · rw [if_neg ht, if_pos h]

/-- Witness for C5: the same configuration as the counterexample satisfies
the amended dead-zone hypothesis and is suppressed with state unchanged. -/
theorem c5_witness :
    (|(3:ℚ) - nextSeekTime none (3 + 1/90)| ≤ MIN_TIME_STEP * (1/2)) ∧
    seekToTime ⟨true, 0, 3, 0, 0⟩ none (3 + 1/90) 1000 = (⟨true, 0, 3, 0, 0⟩, false) :=
  ⟨by norm_num [nextSeekTime, clamp, FREEZE_TIME, MIN_TIME_STEP, min_def, max_def, abs_le],
   c5_dead_zone ⟨true, 0, 3, 0, 0⟩ none (3 + 1/90) 1000
     (by norm_num [nextSeekTime, clamp, FREEZE_TIME, MIN_TIME_STEP, min_def, max_def, abs_le])⟩

/-- Claim C9: `seekToTime` is atomic with respect to its bookkeeping: either
the call is forwarded and then `lastSeekAt` is set to `nowMs`,
`lastRequestedTime` to the clamped target, the media position write is the
clamped target, and `initialized` and `smoothTime` are untouched — or the
call is suppressed and the whole state (throttle window included) is
returned unchanged. -/
theorem c9_seek_atomic (s : SeekState) (duration : Option ℚ) (time nowMs : ℚ) :
    ((seekToTime s duration time nowMs).2 = true ∧
     (seekToTime s duration time nowMs).1 =
       { s with lastSeekAt := nowMs,
                lastRequestedTime := nextSeekTime duration time,
                videoCurrentTime := nextSeekTime duration time }) ∨
    ((seekToTime s duration time nowMs).2 = false ∧
     (seekToTime s duration time nowMs).1 = s) := by
  unfold seekToTime
  by_cases hi : s.initialized = false
  · rw [if_pos hi]; right; exact ⟨rfl, rfl⟩
  · rw [if_neg hi]
    by_cases ht : nowMs - s.lastSeekAt < 1000 / SEEK_FPS
    · rw [if_pos ht]; right; exact ⟨rfl, rfl⟩
    · rw [if_neg ht]
      by_cases hd : |s.lastRequestedTime - nextSeekTime duration time| ≤ MIN_TIME_STEP * (1/2)
      · rw [if_pos hd]; right; exact ⟨rfl, rfl⟩
      · rw [if_neg hd]
        by_cases hc : |s.videoCurrentTime - nextSeekTime duration time| ≤ MIN_TIME_STEP * (1/2)
        · rw [if_pos hc]; right; exact ⟨rfl, rfl⟩
        · rw [if_neg hc]; left; exact ⟨rfl, rfl⟩

/-- `updateTargetFromScroll` (script.js lines 110-113):
`targetTime = clamp(p * FREEZE_TIME, 0, FREEZE_TIME)`. -/
def updateTargetFromScroll (rectTop offsetHeight innerHeight : ℚ) : ℚ :=
  clamp (getPageProgress rectTop offsetHeight innerHeight * FREEZE_TIME) 0 FREEZE_TIME

/-- The elapsed-time computation of `loop` (script.js line 119):
`dt = lastTick ? Math.min((nowMs - lastTick) / 1000, 0.1) : 1 / 60`. -/
def loopDt (lastTick nowMs : ℚ) : ℚ :=
  if lastTick ≠ 0 then min ((nowMs - lastTick) / 1000) (1/10) else 1/60

/-- The exponential smoothing update of `loop` (script.js lines 123-124):
`alpha = 1 - Math.exp(-SMOOTH_RESPONSE * dt)`;
`smoothTime += (targetTime - smoothTime) * alpha`. -/
noncomputable def smoothStep (smoothed target dt : ℝ) : ℝ :=
  smoothed + (target - smoothed) * (1 - Real.exp (-((SMOOTH_RESPONSE : ℚ) : ℝ) * dt))

/-- Counterexample for C1: when the smoothed time already equals the target
(as happens on the first tick after `init` sets `smoothTime = targetTime`),
the distance to the target is 0 and is not strictly decreased by a step. -/
theorem c1_counterexample :
    ¬ (|smoothStep 0 0 (1/60) - 0| < |(0:ℝ) - 0|) := by
  simp [smoothStep]

/-- Claim C1 amended: whenever dt > 0 and the smoothed time differs from the
(held) target, one smoothing step strictly decreases the distance to the
target and lands between the old smoothed time and the target (when they are
equal the step leaves the value exactly at the target, so the distance is
unchanged at 0). -/
theorem c1_smoothing_contracts (smoothed target dt : ℝ)
    (hdt : 0 < dt) (hne : smoothed ≠ target) :
    |smoothStep smoothed target dt - target| < |smoothed - target| ∧
    min smoothed target ≤ smoothStep smoothed target dt ∧
    smoothStep smoothed target dt ≤ max smoothed target := by
  set E := Real.exp (-((SMOOTH_RESPONSE : ℚ) : ℝ) * dt) with hEdef
  have hE0 : 0 < E := Real.exp_pos _
  have hE1 : E < 1 := by
    rw [hEdef, Real.exp_lt_one_iff]
    have h11 : (0:ℝ) < ((SMOOTH_RESPONSE : ℚ) : ℝ) := by norm_num [SMOOTH_RESPONSE]
    nlinarith
  have hstep : smoothStep smoothed target dt = smoothed + (target - smoothed) * (1 - E) := rfl
  refine ⟨?_, ?_, ?_⟩
  · have hkey : smoothStep smoothed target dt - target = (smoothed - target) * E := by
      rw [hstep]; ring
    rw [hkey, abs_mul, abs_of_pos hE0]
    have habs : 0 < |smoothed - target| := abs_pos.2 (sub_ne_zero.2 hne)
    nlinarith
  · rcases le_total smoothed target with h | h
    · rw [min_eq_left h, hstep]
      nlinarith [mul_nonneg (sub_nonneg.2 h) (sub_nonneg.2 hE1.le)]
    · rw [min_eq_right h, hstep]
      nlinarith [mul_nonneg (sub_nonneg.2 h) hE0.le]
  · rcases le_total smoothed target with h | h
    · rw [max_eq_right h, hstep]
      nlinarith [mul_nonneg (sub_nonneg.2 h) hE0.le]
    · rw [max_eq_left h, hstep]
      nlinarith [mul_nonneg (sub_nonneg.2 h) (sub_nonneg.2 hE1.le)]

/-- Witness for C1 at smoothed = 0, target = 7, dt = 1/60. -/
theorem c1_witness :
    ((0:ℝ) < 1/60) ∧ ((0:ℝ) ≠ 7) ∧
    (|smoothStep 0 7 (1/60) - 7| < |(0:ℝ) - 7| ∧
     min (0:ℝ) 7 ≤ smoothStep 0 7 (1/60) ∧
     smoothStep 0 7 (1/60) ≤ max (0:ℝ) 7) :=
  ⟨by norm_num, by norm_num, c1_smoothing_contracts 0 7 (1/60) (by norm_num) (by norm_num)⟩

theorem smoothStep_zero_to_seven :
    smoothStep 0 7 (1/60) = 7 * (1 - Real.exp (-(11/60 : ℝ))) := by
  have harg : -((SMOOTH_RESPONSE : ℚ) : ℝ) * (1/60) = -(11/60 : ℝ) := by
    norm_num [SMOOTH_RESPONSE]
  unfold smoothStep
  rw [harg]; ring

theorem smoothStep_zero_to_seven_le : smoothStep 0 7 (1/60) ≤ 77/60 := by
  rw [smoothStep_zero_to_seven]
  have h1 := Real.add_one_le_exp (-(11/60 : ℝ))
  linarith

theorem le_smoothStep_zero_to_seven : 77/71 ≤ smoothStep 0 7 (1/60) := by
  rw [smoothStep_zero_to_seven]
  have h3 : (71:ℝ)/60 ≤ Real.exp (11/60) := by
    have := Real.add_one_le_exp ((11:ℝ)/60); linarith
  have h2 : Real.exp (-(11/60 : ℝ)) ≤ 60/71 := by
    rw [Real.exp_neg]
    calc (Real.exp ((11:ℝ)/60))⁻¹ ≤ ((71:ℝ)/60)⁻¹ := inv_anti₀ (by norm_num) h3
      _ = 60/71 := by norm_num
  linarith

/-- Counterexample for C2: one smoothing step from 0 toward 7 with dt = 1/60
lands below 1.3, more than 4 away from the claimed value 5.53 (the formula
`7 * (1 - e^(-11/60))` evaluates to about 1.17, not 5.53). -/
theorem c2_counterexample :
    4 < |smoothStep 0 7 (1/60) - 5.53| ∧ smoothStep 0 7 (1/60) < 1.3 := by
  have hub := smoothStep_zero_to_seven_le
  constructor
  · rw [abs_of_neg (by linarith : smoothStep 0 7 (1/60) - 5.53 < 0)]
    linarith
  · linarith

/-- Claim C2 amended: from smoothed time 0 and target 7.0, after one step
with dt = 1/60 and decay rate 11 the smoothed time equals
`7 * (1 - e^(-11/60))`, which is approximately 1.17 (within 0.12). -/
theorem c2_one_step_value :
    smoothStep 0 7 (1/60) = 7 * (1 - Real.exp (-(11/60 : ℝ))) ∧
    |smoothStep 0 7 (1/60) - 1.17| < 0.12 := by
  refine ⟨smoothStep_zero_to_seven, ?_⟩
  have hub := smoothStep_zero_to_seven_le
  have hlb := le_smoothStep_zero_to_seven
  rw [abs_lt]
  constructor <;> linarith

theorem updateTargetFromScroll_mem (rectTop offsetHeight innerHeight : ℚ) :
    0 ≤ updateTargetFromScroll rectTop offsetHeight innerHeight ∧
    updateTargetFromScroll rectTop offsetHeight innerHeight ≤ 7 := by
  unfold updateTargetFromScroll
  refine ⟨left_le_clamp _ 0 FREEZE_TIME, ?_⟩
  have := clamp_le_right (α := ℚ)
    (getPageProgress rectTop offsetHeight innerHeight * FREEZE_TIME)
    (show (0:ℚ) ≤ FREEZE_TIME by norm_num [FREEZE_TIME])
  simpa [FREEZE_TIME] using this

theorem loopDt_nonneg (lastTick nowMs : ℚ) (h : lastTick ≤ nowMs) :
    0 ≤ loopDt lastTick nowMs := by
  unfold loopDt
  by_cases h0 : lastTick ≠ 0
  · rw [if_pos h0]
    exact le_min (div_nonneg (by linarith) (by norm_num)) (by norm_num)
  · rw [if_neg h0]; norm_num

theorem smoothStep_mem {smoothed target dt : ℝ}
    (hs0 : 0 ≤ smoothed) (hs7 : smoothed ≤ 7)
    (ht0 : 0 ≤ target) (ht7 : target ≤ 7) (hdt : 0 ≤ dt) :
    0 ≤ smoothStep smoothed target dt ∧ smoothStep smoothed target dt ≤ 7 := by
  set E := Real.exp (-((SMOOTH_RESPONSE : ℚ) : ℝ) * dt) with hEdef
  have hE0 : 0 < E := Real.exp_pos _
  have hE1 : E ≤ 1 := by
    rw [hEdef, show (1:ℝ) = Real.exp 0 from Real.exp_zero.symm, Real.exp_le_exp]
    have h11 : (0:ℝ) < ((SMOOTH_RESPONSE : ℚ) : ℝ) := by norm_num [SMOOTH_RESPONSE]
    nlinarith
  have hstep : smoothStep smoothed target dt = smoothed + (target - smoothed) * (1 - E) := rfl
  rw [hstep]
  constructor
  · nlinarith [mul_nonneg hs0 hE0.le, mul_nonneg ht0 (sub_nonneg.2 hE1)]
  · nlinarith [mul_nonneg (by linarith : (0:ℝ) ≤ 7 - smoothed) hE0.le,
               mul_nonneg (by linarith : (0:ℝ) ≤ 7 - target) (sub_nonneg.2 hE1)]

/-- Claim C3: the smoothed time is initialized to the clamped target, which
lies in [0, FREEZE_TIME] = [0, 7], and every loop step (target recomputed
from scroll and clamped, dt computed from monotone timestamps, smoothing a
convex interpolation) keeps it in [0, 7]. -/
theorem c3_smooth_time_invariant :
    (∀ rectTop offsetHeight innerHeight : ℚ,
      (0:ℝ) ≤ ((updateTargetFromScroll rectTop offsetHeight innerHeight : ℚ) : ℝ) ∧
      ((updateTargetFromScroll rectTop offsetHeight innerHeight : ℚ) : ℝ) ≤ 7) ∧
    (∀ (rectTop offsetHeight innerHeight lastTick nowMs : ℚ) (smooth : ℝ),
      0 ≤ smooth → smooth ≤ 7 → lastTick ≤ nowMs →
      0 ≤ smoothStep smooth ((updateTargetFromScroll rectTop offsetHeight innerHeight : ℚ) : ℝ)
            ((loopDt lastTick nowMs : ℚ) : ℝ) ∧
      smoothStep smooth ((updateTargetFromScroll rectTop offsetHeight innerHeight : ℚ) : ℝ)
            ((loopDt lastTick nowMs : ℚ) : ℝ) ≤ 7) := by
  have htgt : ∀ rt oh ih : ℚ,
      (0:ℝ) ≤ ((updateTargetFromScroll rt oh ih : ℚ) : ℝ) ∧
      ((updateTargetFromScroll rt oh ih : ℚ) : ℝ) ≤ 7 := by
    intro rt oh ih
    obtain ⟨h0, h7⟩ := updateTargetFromScroll_mem rt oh ih
    constructor
    · exact_mod_cast h0
    · exact_mod_cast h7
  refine ⟨htgt, ?_⟩
  intro rt oh ih lt nw smooth hs0 hs7 hmono
  obtain ⟨ht0, ht7⟩ := htgt rt oh ih
  have hdt : (0:ℝ) ≤ ((loopDt lt nw : ℚ) : ℝ) := by
    exact_mod_cast loopDt_nonneg lt nw hmono
  exact smoothStep_mem hs0 hs7 ht0 ht7 hdt

/-- Witness for C3 at zero geometry, timestamps 0 ≤ 0 and smoothed time 0. -/
theorem c3_witness :
    ((0:ℝ) ≤ ((updateTargetFromScroll 0 0 0 : ℚ) : ℝ) ∧
     ((updateTargetFromScroll 0 0 0 : ℚ) : ℝ) ≤ 7) ∧
    ((0:ℝ) ≤ 0 ∧ (0:ℝ) ≤ 7 ∧ (0:ℚ) ≤ 0) ∧
    (0 ≤ smoothStep 0 ((updateTargetFromScroll 0 0 0 : ℚ) : ℝ) ((loopDt 0 0 : ℚ) : ℝ) ∧
     smoothStep 0 ((updateTargetFromScroll 0 0 0 : ℚ) : ℝ) ((loopDt 0 0 : ℚ) : ℝ) ≤ 7) :=
  ⟨c3_smooth_time_invariant.1 0 0 0,
   ⟨le_refl 0, by norm_num, le_refl 0⟩,
   c3_smooth_time_invariant.2 0 0 0 0 0 0 (le_refl 0) (by norm_num) (le_refl 0)⟩

/-- Constant `synodicMonth = 29.530588853` (app.js line 13). -/
def synodicMonth : ℚ := 29530588853 / 1000000000

/-- `Date.UTC(2024, 0, 11, 11, 57, 0)` in milliseconds since the epoch
(app.js line 14): 19733 days plus 11 h 57 min. -/
def knownNewMoonMs : ℚ := 1704974220000

/-- JavaScript truncation toward zero, as used by the `%` operator. -/
noncomputable def jsTrunc (x : ℝ) : ℤ :=
  if 0 ≤ x then ⌊x⌋ else ⌈x⌉

/-- The JavaScript remainder operator `x % y`:
`x - y * trunc(x / y)` (truncated division, sign of the dividend). -/
noncomputable def jsMod (x y : ℝ) : ℝ :=
  x - y * (jsTrunc (x / y) : ℝ)

/-- `moonPhase(date)` (app.js lines 12-20) as a function of the date's
millisecond timestamp: `daysSince = (ms - knownNewMoonMs)/1000/60/60/24`,
`phase = ((daysSince % synodicMonth) + synodicMonth) % synodicMonth`,
`illumination = (1 - cos(2π * phase / synodicMonth)) / 2`. -/
noncomputable def moonPhase (dateMs : ℝ) : ℝ × ℝ :=
  let daysSince := (dateMs - (knownNewMoonMs : ℝ)) / 1000 / 60 / 60 / 24
  let phase := jsMod (jsMod daysSince (synodicMonth : ℝ) + (synodicMonth : ℝ)) (synodicMonth : ℝ)
  (phase, (1 - Real.cos (2 * Real.pi * phase / (synodicMonth : ℝ))) / 2)

/-- The events that drive the synchronizer after module setup: the one-shot
`loadeddata` listener (script.js line 161), the `resize` listener (line 171),
an animation-frame tick running `loop` (lines 115-131), and the `seeked` and
`timeupdate` redraw listeners (lines 163-164). A tick carries the recomputed
ready flag `smoothTime >= FREEZE_TIME - SCROLL_SLOP` as payload, since the
numeric smoothing state is modelled separately by `smoothStep`. -/
inductive Ev where
  | loadeddata
  | resize
  | tick (ready : Bool)
  | seeked
  | timeupdate
deriving DecidableEq

/-- The control-flow state of the synchronizer: the skip-intro query
parameter, whether `video.load()` was requested, whether the video has
decoded data (`videoWidth`/`readyState` in `drawFrame`), the `initialized`
flag, the `site-ready` body class, whether the animation-frame loop is
scheduled (`rafId`), and counters of seek calls and completed redraws. -/
structure AppState where
  skipIntro : Bool
  loadRequested : Bool
  videoHasData : Bool
  initialized : Bool
  siteReady : Bool
  loopScheduled : Bool
  seekCalls : ℕ
  drawCalls : ℕ
deriving DecidableEq

/-- `drawFrame` (script.js lines 47-78): paints only when the video has
decoded dimensions and enough readiness, modelled by `videoHasData`. -/
def drawFrame (s : AppState) : AppState :=
  if s.videoHasData then { s with drawCalls := s.drawCalls + 1 } else s

/-- `resizeCanvas` (script.js lines 80-89) resizes the surface and ends with
a `drawFrame` call. -/
def resizeCanvas (s : AppState) : AppState :=
  drawFrame s

/-- `init` (script.js lines 133-159): with the skip-intro query parameter it
sets the ready state, marks the state initialized and returns; otherwise it
resizes (one draw attempt), probes autoplay, marks initialized, issues one
immediate seek call and schedules the loop. -/
def init (s : AppState) : AppState :=
  if s.skipIntro then { s with siteReady := true, initialized := true }
  else
    let s1 := resizeCanvas s
    { s1 with initialized := true, seekCalls := s1.seekCalls + 1, loopScheduled := true }

/-- Module-level setup (script.js lines 21-30 and 176): all flags cleared and
`video.load()` requested unconditionally, before the query parameter is ever
consulted. -/
def initialApp (skipIntro : Bool) : AppState :=
  { skipIntro := skipIntro, loadRequested := true, videoHasData := false,
    initialized := false, siteReady := false, loopScheduled := false,
    seekCalls := 0, drawCalls := 0 }

/-- One event step of the synchronizer. -/
def stepEv (s : AppState) : Ev → AppState
  | Ev.loadeddata =>
    if s.initialized then { s with videoHasData := true }
    else init { s with videoHasData := true }
  | Ev.resize => resizeCanvas s
  | Ev.tick ready =>
    if s.loopScheduled then
      if s.initialized then
        drawFrame { s with siteReady := ready, seekCalls := s.seekCalls + 1 }
      else s
    else s
  | Ev.seeked => drawFrame s
  | Ev.timeupdate => drawFrame s

/-- Runs a list of events in order from a given state. -/
def runEvents (s : AppState) (evs : List Ev) : AppState :=
  evs.foldl stepEv s

theorem drawFrame_skipIntro (s : AppState) : (drawFrame s).skipIntro = s.skipIntro := by
  unfold drawFrame; split <;> rfl

theorem drawFrame_seekCalls (s : AppState) : (drawFrame s).seekCalls = s.seekCalls := by
  unfold drawFrame; split <;> rfl

theorem drawFrame_loopScheduled (s : AppState) :
    (drawFrame s).loopScheduled = s.loopScheduled := by
  unfold drawFrame; split <;> rfl

theorem drawFrame_initialized (s : AppState) : (drawFrame s).initialized = s.initialized := by
  unfold drawFrame; split <;> rfl

theorem drawFrame_siteReady (s : AppState) : (drawFrame s).siteReady = s.siteReady := by
  unfold drawFrame; split <;> rfl

theorem stepEv_skip_invariant (s : AppState) (e : Ev)
    (h : s.skipIntro = true ∧ s.seekCalls = 0 ∧ s.loopScheduled = false ∧
         (s.initialized = true → s.siteReady = true)) :
    (stepEv s e).skipIntro = true ∧ (stepEv s e).seekCalls = 0 ∧
    (stepEv s e).loopScheduled = false ∧
    ((stepEv s e).initialized = true → (stepEv s e).siteReady = true) := by
  obtain ⟨hskip, hseek, hloop, hready⟩ := h
  cases e with
  | loadeddata =>
    by_cases hi : s.initialized = true
    · simp [stepEv, hi, hskip, hseek, hloop, hready hi]
    · simp [stepEv, hi, init, hskip, hseek, hloop]
  | resize =>
    simp [stepEv, resizeCanvas, drawFrame_skipIntro, drawFrame_seekCalls,
          drawFrame_loopScheduled, drawFrame_initialized, drawFrame_siteReady,
          hskip, hseek, hloop]
    exact hready
  | tick ready =>
    simp [stepEv, hloop, hskip, hseek]
    exact hready
  | seeked =>
    simp [stepEv, drawFrame_skipIntro, drawFrame_seekCalls, drawFrame_loopScheduled,
          drawFrame_initialized, drawFrame_siteReady, hskip, hseek, hloop]
    exact hready
  | timeupdate =>
    simp [stepEv, drawFrame_skipIntro, drawFrame_seekCalls, drawFrame_loopScheduled,
          drawFrame_initialized, drawFrame_siteReady, hskip, hseek, hloop]
    exact hready

theorem runEvents_skip_invariant (evs : List Ev) :
    ∀ s : AppState, s.skipIntro = true ∧ s.seekCalls = 0 ∧ s.loopScheduled = false ∧
      (s.initialized = true → s.siteReady = true) →
    (runEvents s evs).skipIntro = true ∧ (runEvents s evs).seekCalls = 0 ∧
    (runEvents s evs).loopScheduled = false ∧
    ((runEvents s evs).initialized = true → (runEvents s evs).siteReady = true) := by
  induction evs with
  | nil => intro s h; exact h
  | cons e tl ih => intro s h; exact ih (stepEv s e) (stepEv_skip_invariant s e h)

/-- Counterexample for C8: with the skip-intro parameter set, the ready flag
is indeed true right after the loadeddata/init event, but `video.load()` was
requested at module setup regardless, and a subsequent resize event performs
a redraw of the surface — contradicting the claim that no redraw ever
occurs. -/
theorem c8_counterexample :
    (runEvents (initialApp true) [Ev.loadeddata]).siteReady = true ∧
    (initialApp true).loadRequested = true ∧
    (runEvents (initialApp true) [Ev.loadeddata, Ev.resize]).drawCalls = 1 := by
  refine ⟨rfl, rfl, rfl⟩

/-- Claim C8 amended: with the skip-intro parameter set, after any sequence
of events no seek call is ever issued, the animation-frame loop is never
scheduled, and once initialization has run the ready flag is (and stays)
true; redraws may still occur through the resize/seeked/timeupdate handlers
and the media load is still requested at setup. -/
theorem c8_skip_intro_no_seek (evs : List Ev) :
    (runEvents (initialApp true) evs).seekCalls = 0 ∧
    (runEvents (initialApp true) evs).loopScheduled = false ∧
    ((runEvents (initialApp true) evs).initialized = true →
      (runEvents (initialApp true) evs).siteReady = true) := by
  have h := runEvents_skip_invariant evs (initialApp true)
    ⟨rfl, rfl, rfl, fun hc => absurd hc (by simp [initialApp])⟩
  exact ⟨h.2.1, h.2.2.1, h.2.2.2⟩

/-- Witness for C8 after the loadeddata event: the state is initialized, the
ready flag is true, there are no seek calls and no scheduled loop. -/
theorem c8_witness :
    (runEvents (initialApp true) [Ev.loadeddata]).seekCalls = 0 ∧
    (runEvents (initialApp true) [Ev.loadeddata]).loopScheduled = false ∧
    (runEvents (initialApp true) [Ev.loadeddata]).initialized = true ∧
    (runEvents (initialApp true) [Ev.loadeddata]).siteReady = true :=
  ⟨(c8_skip_intro_no_seek [Ev.loadeddata]).1,
   (c8_skip_intro_no_seek [Ev.loadeddata]).2.1,
   rfl,
   (c8_skip_intro_no_seek [Ev.loadeddata]).2.2 rfl⟩

theorem jsMod_bounds {x y : ℝ} (hy : 0 < y) : -y < jsMod x y ∧ jsMod x y < y := by
  unfold jsMod jsTrunc
  have hxy : x / y * y = x := div_mul_cancel₀ x hy.ne'
  by_cases hx : 0 ≤ x / y
  · rw [if_pos hx]
    have h1 : (⌊x / y⌋ : ℝ) * y ≤ x := by
      have := mul_le_mul_of_nonneg_right (Int.floor_le (x / y)) hy.le
      rwa [hxy] at this
    have h2 : x < ((⌊x / y⌋ : ℝ) + 1) * y := by
      have := mul_lt_mul_of_pos_right (Int.lt_floor_add_one (x / y)) hy
      rwa [hxy] at this
    constructor <;> nlinarith
  · rw [if_neg hx]
    have h1 : x ≤ (⌈x / y⌉ : ℝ) * y := by
      have := mul_le_mul_of_nonneg_right (Int.le_ceil (x / y)) hy.le
      rwa [hxy] at this
    have h2 : (⌈x / y⌉ : ℝ) * y < x + y := by
      have := mul_lt_mul_of_pos_right (Int.ceil_lt_add_one (x / y)) hy
      rw [add_mul, one_mul, hxy] at this
      exact this
    constructor <;> nlinarith

theorem jsMod_nonneg_of_nonneg {x y : ℝ} (hy : 0 < y) (hx : 0 ≤ x) :
    0 ≤ jsMod x y := by
  unfold jsMod jsTrunc
  have hxy : x / y * y = x := div_mul_cancel₀ x hy.ne'
  have hdiv : 0 ≤ x / y := div_nonneg hx hy.le
  rw [if_pos hdiv]
  have h1 : (⌊x / y⌋ : ℝ) * y ≤ x := by
    have := mul_le_mul_of_nonneg_right (Int.floor_le (x / y)) hy.le
    rwa [hxy] at this
  nlinarith

/-- Claim C10: for every input date (before or after the 2024-01-11 reference
new moon), `moonPhase` returns a phase in `[0, synodicMonth)` — the double
modulo normalizes negative day differences — and an illumination in [0, 1]. -/
theorem c10_moon_phase_ranges (dateMs : ℝ) :
    0 ≤ (moonPhase dateMs).1 ∧ (moonPhase dateMs).1 < (synodicMonth : ℝ) ∧
    0 ≤ (moonPhase dateMs).2 ∧ (moonPhase dateMs).2 ≤ 1 := by
  have hy : (0:ℝ) < (synodicMonth : ℝ) := by
    norm_num [synodicMonth]
  set d := (dateMs - (knownNewMoonMs : ℝ)) / 1000 / 60 / 60 / 24 with hd
  have hinner := jsMod_bounds (x := d) hy
  have hz : 0 ≤ jsMod d (synodicMonth : ℝ) + (synodicMonth : ℝ) := by linarith [hinner.1]
  have houter := jsMod_bounds (x := jsMod d (synodicMonth : ℝ) + (synodicMonth : ℝ)) hy
  have hphase0 : 0 ≤ (moonPhase dateMs).1 := jsMod_nonneg_of_nonneg hy hz
  have hphase1 : (moonPhase dateMs).1 < (synodicMonth : ℝ) := houter.2
  refine ⟨hphase0, hphase1, ?_, ?_⟩
  · have hc : Real.cos (2 * Real.pi * (moonPhase dateMs).1 / (synodicMonth : ℝ)) ≤ 1 :=
      Real.cos_le_one _
    show 0 ≤ (1 - Real.cos (2 * Real.pi * (moonPhase dateMs).1 / (synodicMonth : ℝ))) / 2
    linarith
  · have hc : -1 ≤ Real.cos (2 * Real.pi * (moonPhase dateMs).1 / (synodicMonth : ℝ)) :=
      Real.neg_one_le_cos _
    show (1 - Real.cos (2 * Real.pi * (moonPhase dateMs).1 / (synodicMonth : ℝ))) / 2 ≤ 1
    linarith
